import Mathlib

/-!
# SM5K front-end scripts: carousel, mobile menu, exercise-plan form

Shallow embedding of `static/js/carousel.js`, `static/js/mobile-menu.js` and
`static/js/exercise-plan.js`.

* An element's `classList` is observed only through the class `active`, so an
  element is modelled by one `Bool` (whether `active` is in its class list).
* An event handler that throws keeps the mutations it made before the throw;
  a handler therefore returns an `Outcome`: the state it leaves and whether it
  threw.
* JavaScript numbers used as indices are natural numbers or `NaN`
  (`Option Nat`, `none` being `NaN`).
* Values parsed from a JSON response are `JsVal`; a number is an integer
  (fractions and exponents are outside the model). An expression that can throw
  a `TypeError` returns `Option`, `none` being the throw.
* The elements `exercise-plan.js` looks up by id are taken to exist.
-/

namespace SM5K

/-- Result of running an event handler: the state it leaves behind and whether
an exception escaped from it. -/
structure Outcome (σ : Type) where
  state : σ
  threw : Bool
  deriving Repr, DecidableEq

/-! ## carousel.js -/

/-- State captured by the `DOMContentLoaded` closure of `carousel.js`:
the `active` marker of each element of `slides`, of each element of
`indicators`, and the variable `currentSlide` (`none` is `NaN`). -/
structure Carousel where
  slides : List Bool
  indicators : List Bool
  currentSlide : Option Nat
  deriving Repr, DecidableEq

/-- The state right after the `DOMContentLoaded` handler has run on a page whose
markup gives the slides and indicators the markers `slides` and `indicators`:
`let currentSlide = 0`, no marker is touched. -/
def Carousel.load (slides indicators : List Bool) : Carousel :=
  { slides := slides, indicators := indicators, currentSlide := some 0 }

/-- The loop `xs.forEach(x => x.classList.remove('active'))`. -/
def clearActive (xs : List Bool) : List Bool :=
  xs.map (fun _ => false)

/-- The function `showSlide(n)`. `slides[n]` and `indicators[n]` are `undefined`
when `n` is `NaN` or not below the length, and `.classList` on `undefined`
throws after the preceding statements have run. -/
def showSlide (c : Carousel) (n : Option Nat) : Outcome Carousel :=
  let c1 := { c with slides := clearActive c.slides }
  let c2 := { c1 with indicators := clearActive c1.indicators }
  match n with
  | none => { state := c2, threw := true }
  | some k =>
    if k < c2.slides.length then
      let c3 := { c2 with slides := c2.slides.set k true }
      if k < c3.indicators.length then
        { state := { c3 with indicators := c3.indicators.set k true }, threw := false }
      else { state := c3, threw := true }
    else { state := c2, threw := true }

/-- The expression `(currentSlide + 1) % slides.length` on JavaScript numbers:
`NaN` propagates and `x % 0` is `NaN`. -/
def nextIndex (cur : Option Nat) (len : Nat) : Option Nat :=
  match cur with
  | none => none
  | some k => if len = 0 then none else some ((k + 1) % len)

/-- The function `nextSlide()`, the callback of `setInterval(nextSlide, 6000)`. -/
def nextSlide (c : Carousel) : Outcome Carousel :=
  let c1 := { c with currentSlide := nextIndex c.currentSlide c.slides.length }
  showSlide c1 c1.currentSlide

/-- The click listener registered on `indicators[index]`. -/
def indicatorClick (c : Carousel) (index : Nat) : Outcome Carousel :=
  let c1 := { c with currentSlide := some index }
  showSlide c1 c1.currentSlide

/-- What can happen to the carousel after load: a timer tick or a click on the
indicator at a position. -/
inductive CarouselEvent where
  | tick
  | click (index : Nat)
  deriving Repr, DecidableEq

/-- Dispatch of one event. A listener exists only for positions of
`indicators`; a position without an indicator has nothing to click. -/
def carouselStep (c : Carousel) : CarouselEvent → Outcome Carousel
  | .tick => nextSlide c
  | .click i =>
    if i < c.indicators.length then indicatorClick c i
    else { state := c, threw := false }

/-- State after a sequence of events (an exception in one handler does not stop
later events from being dispatched). -/
def carouselRun (c : Carousel) : List CarouselEvent → Carousel
  | [] => c
  | e :: es => carouselRun (carouselStep c e).state es

/-- State after `k` consecutive runs of `nextSlide`. -/
def nextSlideTimes (c : Carousel) : Nat → Carousel
  | 0 => c
  | k + 1 => nextSlideTimes (nextSlide c).state k

/-- `xs` has the marker at position `n` and nowhere else. -/
def OnlyActiveAt (xs : List Bool) (n : Nat) : Prop :=
  ∀ i, i < xs.length → xs[i]? = some (decide (i = n))

/-- The carousel invariant of the data model: the index is a position, exactly
one slide and one indicator carry the marker, at the same position. -/
def CarouselInv (c : Carousel) : Prop :=
  (∃ k, c.currentSlide = some k ∧ k < c.slides.length) ∧
  c.slides.count true = 1 ∧ c.indicators.count true = 1 ∧
  ∃ p, p < c.slides.length ∧ p < c.indicators.length ∧
    OnlyActiveAt c.slides p ∧ OnlyActiveAt c.indicators p

/-! ## mobile-menu.js -/

/-- The two elements looked up by `mobile-menu.js`: `none` when
`getElementById` returns `null`, otherwise the element's `active` marker. -/
structure MenuDom where
  hamburger : Option Bool
  mobileMenu : Option Bool
  deriving Repr, DecidableEq

/-- The click listener on the hamburger. It is registered only inside
`if (hamburger)`; `mobileMenu.classList` throws when the panel is `null`, after
the hamburger has been toggled. -/
def hamburgerClick (d : MenuDom) : Outcome MenuDom :=
  match d.hamburger with
  | none => { state := d, threw := false }
  | some h =>
    let d1 := { d with hamburger := some (!h) }
    match d1.mobileMenu with
    | none => { state := d1, threw := true }
    | some m => { state := { d1 with mobileMenu := some (!m) }, threw := false }

/-- The click listener on an anchor inside the panel. Anchors are found with
`mobileMenu.querySelectorAll('a')` inside `if (hamburger)`, so a link with this
listener exists only when both elements do. -/
def menuLinkClick (d : MenuDom) : Outcome MenuDom :=
  match d.hamburger, d.mobileMenu with
  | some _, some _ => { state := { hamburger := some false, mobileMenu := some false }, threw := false }
  | _, _ => { state := d, threw := false }

/-- State after `k` clicks on the hamburger. -/
def hamburgerClicks (d : MenuDom) : Nat → MenuDom
  | 0 => d
  | k + 1 => hamburgerClicks (hamburgerClick d).state k

/-! ## exercise-plan.js -/

/-- A value produced by `response.json()`, or `undefined` for a property that
is not there. -/
inductive JsVal where
  | undefined
  | null
  | bool (b : Bool)
  | num (n : Int)
  | str (s : String)
  | arr (xs : List JsVal)
  | obj (fields : List (String × JsVal))
  deriving Repr

namespace JsVal

/-- Own property `key` of a parsed JSON object; the last occurrence of a
duplicated key wins, a missing key gives `undefined`. -/
def lookup (key : String) : List (String × JsVal) → JsVal
  | [] => .undefined
  | (k, v) :: rest =>
    if rest.any (fun q => q.1 == key) then lookup key rest
    else if k == key then v else .undefined

/-- Property read `v.key` for the property names the scripts use (none of them
is inherited from a prototype): a `TypeError` on `undefined` and `null`,
`undefined` on the other non-objects. -/
def getProp (v : JsVal) (key : String) : Option JsVal :=
  match v with
  | .undefined => none
  | .null => none
  | .obj fs => some (lookup key fs)
  | _ => some .undefined

/-- Truthiness, as tested by `if (v)` and `v ? a : b`. -/
def truthy : JsVal → Bool
  | .undefined => false
  | .null => false
  | .bool b => b
  | .num n => n != 0
  | .str s => s != ""
  | .arr _ => true
  | .obj _ => true

mutual
/-- String conversion of an interpolated value `${v}`. An array is joined with
commas; an object prints as `[object Object]` unless it has an own `toString`
property, which is never callable and makes the conversion throw. -/
def toStr : JsVal → Option String
  | .undefined => some "undefined"
  | .null => some "null"
  | .bool b => some (if b then "true" else "false")
  | .num n => some (toString n)
  | .str s => some s
  | .arr xs => joinElems true xs
  | .obj fs => if fs.any (fun q => q.1 == "toString") then none else some "[object Object]"
termination_by structural v => v
/-- The body of `Array.prototype.join`: `undefined` and `null` elements print as
the empty string. -/
def joinElems (first : Bool) : List JsVal → Option String
  | [] => some ""
  | x :: rest =>
    let sep := if first then "" else ","
    let e := match x with
      | .undefined => some ""
      | .null => some ""
      | v => toStr v
    match e, joinElems false rest with
    | some a, some b => some (sep ++ a ++ b)
    | _, _ => none
termination_by structural xs => xs
end

/-- Conversion done by the setter of `textContent` (a nullable string):
`undefined` and `null` become the empty text. -/
def toText : JsVal → Option String
  | .undefined => some ""
  | .null => some ""
  | v => toStr v

/-- The iterations of `xs.forEach(x => body)` where `body` updates the local
string `planHTML`; a throw inside the callback ends the loop. -/
def forEachLoop (body : JsVal → String → Option String) : List JsVal → String → Option String
  | [], acc => some acc
  | x :: xs, acc =>
    match body x acc with
    | none => none
    | some acc1 => forEachLoop body xs acc1

/-- The call `v.forEach(x => body)`: only an array has a callable `forEach`. -/
def forEach (v : JsVal) (body : JsVal → String → Option String) (acc : String) : Option String :=
  match v with
  | .arr xs => forEachLoop body xs acc
  | _ => none

/-- The interpolation `${v.key}`. -/
def interp (v : JsVal) (key : String) : Option String :=
  (getProp v key).bind toStr

end JsVal

open JsVal

/-- The fragment `${exercise.sets ? ' - ' + exercise.sets + ' sets' : empty}`. -/
def setsFragment (sets : JsVal) : Option String :=
  if sets.truthy then sets.toStr.map (fun t => " - " ++ t ++ " sets") else some ""

/-- The fragment `${exercise.reps ? ' x ' + exercise.reps : empty}`. -/
def repsFragment (reps : JsVal) : Option String :=
  if reps.truthy then reps.toStr.map (fun t => " x " ++ t) else some ""

/-- The fragment `${exercise.duration ? ' (' + exercise.duration + ')' : empty}`. -/
def durationFragment (duration : JsVal) : Option String :=
  if duration.truthy then duration.toStr.map (fun t => " (" ++ t ++ ")") else some ""

/-- The template literal appended for one exercise (lines 82 to 89). -/
def exerciseItem (exercise : JsVal) : Option String := do
  let name ← interp exercise "name"
  let sets ← (getProp exercise "sets").bind setsFragment
  let reps ← (getProp exercise "reps").bind repsFragment
  let duration ← (getProp exercise "duration").bind durationFragment
  some ("\n        <li class=\"exercise-item\">\n          <span class=\"exercise-name\">"
    ++ name ++ "</span>\n          " ++ sets ++ "\n          " ++ reps
    ++ "\n          " ++ duration ++ "\n        </li>\n      ")

/-- The callback of `day.exercises.forEach`. -/
def exerciseBody (exercise : JsVal) (planHTML : String) : Option String :=
  (exerciseItem exercise).map (fun item => planHTML ++ item)

/-- The template literal opening a day (lines 74 to 79). -/
def dayHead (day : JsVal) : Option String := do
  let label ← interp day "day"
  let focus ← interp day "focus"
  some ("\n      <div class=\"day-plan\">\n        <h4>" ++ label ++ "</h4>\n        <p>"
    ++ focus ++ "</p>\n        <ul class=\"exercises-list\">\n    ")

/-- The template literal closing a day (lines 92 to 95). -/
def dayTail : String := "\n        </ul>\n      </div>\n    "

/-- The callback of `data.plan.weekly_plan.forEach`. -/
def dayBody (day : JsVal) (planHTML : String) : Option String := do
  let head ← dayHead day
  let exercises ← getProp day "exercises"
  let withItems ← forEach exercises exerciseBody (planHTML ++ head)
  some (withItems ++ dayTail)

/-- The template literal that starts `planHTML` (lines 62 to 70). -/
def planHeader (data : JsVal) : Option String := do
  let plan ← getProp data "plan"
  let category ← interp plan "category"
  let focus ← interp plan "focus"
  let frequency ← interp plan "weekly_frequency"
  some ("\n    <div class=\"plan-header\">\n      <h3>" ++ category ++ "</h3>\n      <p>Focus: "
    ++ focus ++ "</p>\n      <p>Weekly Frequency: " ++ frequency
    ++ "</p>\n    </div>\n    \n    <div class=\"weekly-plan\">\n  ")

/-- The nutrition template literal (lines 102 to 107). -/
def nutritionBlock (text : String) : String :=
  "\n      <div class=\"nutrition-section\">\n        <h4>Nutrition Focus</h4>\n        <p>"
    ++ text ++ "</p>\n      </div>\n    "

/-- The statement `if (data.plan.nutrition_focus) planHTML += ...`. -/
def nutritionSection (plan : JsVal) (planHTML : String) : Option String := do
  let nf ← getProp plan "nutrition_focus"
  if nf.truthy then
    let text ← nf.toStr
    some (planHTML ++ nutritionBlock text)
  else some planHTML

/-- The template literal opening the notes block (lines 112 to 116). -/
def notesHead : String :=
  "\n      <div class=\"nutrition-section\" style=\"border-left-color: #FFD700; margin-top: 1rem;\">"
    ++ "\n        <h4 style=\"color: #FFD700;\">Important Notes</h4>"
    ++ "\n        <ul style=\"padding-left: 1rem; margin: 0;\">\n    "

/-- The list item appended for one note (line 118). -/
def noteItem (text : String) : String :=
  "<li style=\"color: var(--secondary-neutral); margin-bottom: 0.5rem;\">" ++ text ++ "</li>"

/-- The callback of `data.plan.important_notes.forEach`. -/
def noteBody (note : JsVal) (planHTML : String) : Option String :=
  note.toStr.map (fun text => planHTML ++ noteItem text)

/-- The string closing the notes block (line 120). -/
def notesTail : String := "</ul></div>"

/-- The statement `if (data.plan.important_notes) ...` (lines 111 to 121). -/
def notesSection (plan : JsVal) (planHTML : String) : Option String := do
  let notes ← getProp plan "important_notes"
  if notes.truthy then
    let withItems ← forEach notes noteBody (planHTML ++ notesHead)
    some (withItems ++ notesTail)
  else some planHTML

/-- The value of `planHTML` when `displayPlan(data)` reaches line 123, `none`
when an exception is thrown before. -/
def buildPlanHTML (data : JsVal) : Option String := do
  let header ← planHeader data
  let plan ← getProp data "plan"
  let days ← getProp plan "weekly_plan"
  let withDays ← forEach days dayBody header
  let closed := withDays ++ "</div>"
  let withNutrition ← nutritionSection plan closed
  notesSection plan withNutrition

/-- The part of the page `exercise-plan.js` writes to: the `style.display` of
the three panels, the text of `bmiValue`, `bmiCategory` and `errorMessage`, and
the HTML assigned to `planResults`. -/
structure PlanPage where
  resultsDisplay : String
  errorDisplay : String
  loadingDisplay : String
  bmiValue : String
  bmiCategory : String
  planResults : String
  errorMessage : String
  deriving Repr, DecidableEq

/-- The function `displayPlan(data)`. -/
def displayPlan (p : PlanPage) (data : JsVal) : Outcome PlanPage :=
  match (getProp data "bmi").bind toText with
  | none => { state := p, threw := true }
  | some bmi =>
    let p1 := { p with bmiValue := bmi }
    match (getProp data "category").bind toText with
    | none => { state := p1, threw := true }
    | some category =>
      let p2 := { p1 with bmiCategory := category }
      match buildPlanHTML data with
      | none => { state := p2, threw := true }
      | some planHTML =>
        let p3 := { p2 with planResults := planHTML }
        { state := { p3 with resultsDisplay := "flex" }, threw := false }

/-- The function `showError(message)`. -/
def showError (p : PlanPage) (message : JsVal) : Outcome PlanPage :=
  match message.toText with
  | none => { state := p, threw := true }
  | some text =>
    let p1 := { p with errorMessage := text }
    { state := { p1 with errorDisplay := "block" }, threw := false }

/-- How the two `await`s of the submit handler end: the attempt fails before a
parsed body exists (`fetch` rejects, the body is not JSON, the CSRF field is
missing), or `response.json()` yields `result`. -/
inductive Attempt where
  | failed
  | responded (result : JsVal)
  deriving Repr

/-- The message of the `catch` block. -/
def fallbackMessage : String := "Failed to generate plan. Please try again."

/-- The `try` block of the submit handler (lines 19 to 39). -/
def tryBlock (p : PlanPage) : Attempt → Outcome PlanPage
  | .failed => { state := p, threw := true }
  | .responded result =>
    match getProp result "success" with
    | none => { state := p, threw := true }
    | some success =>
      if success.truthy then
        match getProp result "data" with
        | none => { state := p, threw := true }
        | some data => displayPlan p data
      else
        match getProp result "error" with
        | none => { state := p, threw := true }
        | some error => showError p error

/-- The statements before `try` (lines 15 to 17). -/
def beginSubmit (p : PlanPage) : PlanPage :=
  let p1 := { p with resultsDisplay := "none" }
  let p2 := { p1 with errorDisplay := "none" }
  { p2 with loadingDisplay := "flex" }

/-- The submit handler of `metricsForm`, run to completion for one submit:
`try`, then `catch` when the `try` block threw, then `finally`. -/
def submit (p : PlanPage) (a : Attempt) : Outcome PlanPage :=
  let tried := tryBlock (beginSubmit p) a
  let caught :=
    if tried.threw then showError tried.state (.str fallbackMessage) else tried
  { state := { caught.state with loadingDisplay := "none" }, threw := caught.threw }

/-! ## Definitions used to state the properties -/

/-- Well-formed carousel: as many indicators as slides, at least one slide, and
an index that is a position. -/
def CarouselShape (c : Carousel) : Prop :=
  c.indicators.length = c.slides.length ∧ 0 < c.slides.length ∧
  ∃ k, c.currentSlide = some k ∧ k < c.slides.length

/-- The active pair sits at the current index. -/
def CarouselSynced (c : Carousel) : Prop :=
  ∃ k, c.currentSlide = some k ∧ OnlyActiveAt c.slides k ∧ OnlyActiveAt c.indicators k

/-- An event that has a handler to run: a tick, or a click on an existing
indicator. -/
def CarouselEvent.Effective (c : Carousel) : CarouselEvent → Prop
  | .tick => True
  | .click i => i < c.indicators.length

instance (c : Carousel) (e : CarouselEvent) : Decidable (e.Effective c) := by
  cases e <;> unfold CarouselEvent.Effective <;> infer_instance

/-- Concatenation of a list of strings, in list order. -/
def concatAll : List String → String
  | [] => ""
  | s :: ss => s ++ concatAll ss

/-- A fragment of an exercise item: `pre ++ n ++ post` when it is emitted with
the printed value `n`, nothing when it is not. -/
def optFragment (pre post : String) : Option String → String
  | some n => pre ++ n ++ post
  | none => ""

/-- The item of an exercise as the render algorithm describes it: the name,
then the sets, reps and duration fragments (`none` for a fragment that is not
emitted), on the lines of the item template. -/
def exerciseItemText (name : String) (sets reps duration : Option String) : String :=
  "\n        <li class=\"exercise-item\">\n          <span class=\"exercise-name\">"
    ++ name ++ "</span>\n          " ++ optFragment " - " " sets" sets
    ++ "\n          " ++ optFragment " x " "" reps
    ++ "\n          " ++ optFragment " (" ")" duration ++ "\n        </li>\n      "

/-- The printed form of a field when its fragment is emitted: a field is shown
when its value is truthy. -/
def shownField (v : JsVal) (text : String) : Option String :=
  if v.truthy then some text else none

/-- The string `item` is the rendering of the exercise `ex`. -/
def ItemOf (ex : JsVal) (item : String) : Prop :=
  ∃ name vs vr vd ts tr td,
    interp ex "name" = some name ∧
    getProp ex "sets" = some vs ∧ vs.toStr = some ts ∧
    getProp ex "reps" = some vr ∧ vr.toStr = some tr ∧
    getProp ex "duration" = some vd ∧ vd.toStr = some td ∧
    item = exerciseItemText name (shownField vs ts) (shownField vr tr) (shownField vd td)

/-- The string `block` is the rendering of the day entry `day`: its head, the
items of its exercises in list order, its tail. -/
def DayBlockOf (day : JsVal) (block : String) : Prop :=
  ∃ head exercises items,
    dayHead day = some head ∧ getProp day "exercises" = some (.arr exercises) ∧
    List.Forall₂ ItemOf exercises items ∧
    block = head ++ concatAll items ++ dayTail

/-- The string `s` is what the nutrition statement appends for the value `nf` of
`nutrition_focus`. -/
def NutritionPartOf (nf : JsVal) (s : String) : Prop :=
  (nf.truthy = false ∧ s = "") ∨
  (nf.truthy = true ∧ ∃ t, nf.toStr = some t ∧ s = nutritionBlock t)

/-- The string `s` is what the notes statement appends for the value `notes` of
`important_notes`. -/
def NotesPartOf (notes : JsVal) (s : String) : Prop :=
  (notes.truthy = false ∧ s = "") ∨
  (notes.truthy = true ∧ ∃ ns ts, notes = .arr ns ∧
    List.Forall₂ (fun n t => n.toStr = some t) ns ts ∧
    s = notesHead ++ concatAll (ts.map noteItem) ++ notesTail)

/-- The string `html` is the plan markup of `data`: header, the day blocks in
list order, the closing tag, then the nutrition and notes parts. -/
def PlanMarkupOf (data : JsVal) (html : String) : Prop :=
  ∃ header plan days blocks nf nutrition notes notesPart,
    planHeader data = some header ∧ getProp data "plan" = some plan ∧
    getProp plan "weekly_plan" = some (.arr days) ∧ List.Forall₂ DayBlockOf days blocks ∧
    getProp plan "nutrition_focus" = some nf ∧ NutritionPartOf nf nutrition ∧
    getProp plan "important_notes" = some notes ∧ NotesPartOf notes notesPart ∧
    html = header ++ concatAll blocks ++ "</div>" ++ nutrition ++ notesPart

/-- Whether `text` occurs in `html` as a run of consecutive characters. -/
def containsText (html text : String) : Bool :=
  decide (text.data <:+: html.data)

/-- A response payload with one day holding one exercise, which has a name and
the given `sets` and `reps` and no other field; `nutrition_focus` and
`important_notes` are not in the plan. -/
def onePlan (name : String) (sets reps : JsVal) : JsVal :=
  .obj [("bmi", .num 22), ("category", .str "Normal"),
    ("plan", .obj [("category", .str "Maintain"), ("focus", .str "Strength"),
      ("weekly_frequency", .str "3 days"),
      ("weekly_plan", .arr [.obj [("day", .str "Monday"), ("focus", .str "Legs"),
        ("exercises", .arr [.obj [("name", .str name), ("sets", sets), ("reps", reps)]])]])])]

/-- A response payload without days whose plan has the extra fields `extra`. -/
def emptyPlan (extra : List (String × JsVal)) : JsVal :=
  .obj [("bmi", .num 22), ("category", .str "Normal"),
    ("plan", .obj ([("category", .str "Maintain"), ("focus", .str "Strength"),
      ("weekly_frequency", .str "3 days"), ("weekly_plan", .arr [])] ++ extra))]

/-! ## Theorems: carousel.js -/

theorem clearActive_length (xs : List Bool) : (clearActive xs).length = xs.length := by
  simp [clearActive]

theorem clearActive_eq_replicate (xs : List Bool) :
    clearActive xs = List.replicate xs.length false := by
  simp [clearActive]

theorem count_set_replicate (len n : Nat) (h : n < len) :
    ((List.replicate len false).set n true).count true = 1 := by
  induction len generalizing n with
  | zero => omega
  | succ m ih =>
    cases n with
    | zero => simp [List.replicate_succ, List.count_replicate]
    | succ k =>
      have hk : k < m := by omega
      simp [List.replicate_succ, ih k hk]

theorem onlyActiveAt_mark (xs : List Bool) (n : Nat) :
    OnlyActiveAt ((clearActive xs).set n true) n := by
  intro i hi
  have hi2 : i < xs.length := by simpa [clearActive] using hi
  by_cases h : i = n
  · subst h
    simp [clearActive, hi2]
  · have h2 : ¬ n = i := fun e => h e.symm
    simp [clearActive, List.getElem?_set, h, h2, hi2]

theorem count_mark (xs : List Bool) (n : Nat) (h : n < xs.length) :
    ((clearActive xs).set n true).count true = 1 := by
  rw [clearActive_eq_replicate]
  exact count_set_replicate xs.length n h

theorem showSlide_in_range (c : Carousel) (n : Nat)
    (hs : n < c.slides.length) (hi : n < c.indicators.length) :
    showSlide c (some n) =
      { state := { slides := (clearActive c.slides).set n true,
                   indicators := (clearActive c.indicators).set n true,
                   currentSlide := c.currentSlide },
        threw := false } := by
  simp [showSlide, clearActive_length, hs, hi]

theorem showSlide_slides (c : Carousel) (n : Nat) (hs : n < c.slides.length) :
    (showSlide c (some n)).state.slides = (clearActive c.slides).set n true ∧
    (showSlide c (some n)).state.currentSlide = c.currentSlide := by
  by_cases hi : n < c.indicators.length
  · simp [showSlide, clearActive_length, hs, hi]
  · simp [showSlide, clearActive_length, hs, hi]

theorem shown_inv (c : Carousel) (n : Nat)
    (hlen : c.indicators.length = c.slides.length) (hn : n < c.slides.length)
    (hcur : c.currentSlide = some n) :
    CarouselInv (showSlide c (some n)).state ∧ CarouselSynced (showSlide c (some n)).state ∧
    CarouselShape (showSlide c (some n)).state ∧
    (showSlide c (some n)).state.slides.length = c.slides.length := by
  have hi : n < c.indicators.length := by omega
  rw [showSlide_in_range c n hn hi]
  refine ⟨⟨⟨n, hcur, by simpa [clearActive] using hn⟩, count_mark _ _ hn, count_mark _ _ hi,
    n, by simpa [clearActive] using hn, by simpa [clearActive] using hi,
    onlyActiveAt_mark _ _, onlyActiveAt_mark _ _⟩,
    ⟨n, hcur, onlyActiveAt_mark _ _, onlyActiveAt_mark _ _⟩,
    ⟨by simp [clearActive, hlen], by simp [clearActive]; omega, n, hcur,
      by simpa [clearActive] using hn⟩, by simp [clearActive]⟩

theorem step_effective (c : Carousel) (e : CarouselEvent)
    (hc : CarouselShape c) (he : e.Effective c) :
    CarouselInv (carouselStep c e).state ∧ CarouselSynced (carouselStep c e).state ∧
    CarouselShape (carouselStep c e).state ∧
    (carouselStep c e).state.slides.length = c.slides.length := by
  obtain ⟨hlen, hpos, k, hk, hklt⟩ := hc
  cases e with
  | tick =>
    have hne : c.slides.length ≠ 0 := by omega
    have hidx : nextIndex c.currentSlide c.slides.length = some ((k + 1) % c.slides.length) := by
      simp [nextIndex, hk, hne]
    have hlt : (k + 1) % c.slides.length < c.slides.length := Nat.mod_lt _ hpos
    simp only [carouselStep, nextSlide, hidx]
    exact shown_inv { c with currentSlide := some ((k + 1) % c.slides.length) } _ hlen hlt rfl
  | click i =>
    have hi : i < c.indicators.length := he
    have hlt : i < c.slides.length := by omega
    simp only [carouselStep, hi, if_true, indicatorClick]
    exact shown_inv { c with currentSlide := some i } _ hlen hlt rfl

theorem step_shape (c : Carousel) (e : CarouselEvent) (hc : CarouselShape c) :
    CarouselShape (carouselStep c e).state ∧
    (carouselStep c e).state.slides.length = c.slides.length ∧
    (CarouselInv c → CarouselInv (carouselStep c e).state) := by
  by_cases he : e.Effective c
  · obtain ⟨h1, _, h3, h4⟩ := step_effective c e hc he
    exact ⟨h3, h4, fun _ => h1⟩
  · cases e with
    | tick => exact absurd trivial he
    | click i =>
      have hi : ¬ i < c.indicators.length := he
      have hstep : carouselStep c (.click i) = { state := c, threw := false } := by
        simp [carouselStep, hi]
      rw [hstep]
      exact ⟨hc, rfl, id⟩

theorem run_shape (es : List CarouselEvent) (c : Carousel) (hc : CarouselShape c) :
    CarouselShape (carouselRun c es) ∧
    (carouselRun c es).slides.length = c.slides.length ∧
    (CarouselInv c → CarouselInv (carouselRun c es)) := by
  induction es generalizing c with
  | nil => exact ⟨hc, rfl, id⟩
  | cons e es ih =>
    obtain ⟨h1, h2, h3⟩ := step_shape c e hc
    obtain ⟨g1, g2, g3⟩ := ih _ h1
    exact ⟨g1, by rw [carouselRun, g2, h2], fun h => g3 (h3 h)⟩

theorem run_append (es : List CarouselEvent) (e : CarouselEvent) (c : Carousel) :
    carouselRun c (es ++ [e]) = (carouselStep (carouselRun c es) e).state := by
  induction es generalizing c with
  | nil => rfl
  | cons x xs ih => simp [carouselRun, ih]

theorem load_shape (slides indicators : List Bool)
    (hpos : 0 < slides.length) (hlen : indicators.length = slides.length) :
    CarouselShape (Carousel.load slides indicators) :=
  ⟨hlen, hpos, 0, rfl, hpos⟩

theorem nextSlide_state (c : Carousel) (s : Nat)
    (hcur : c.currentSlide = some s) (hs : s < c.slides.length) :
    (nextSlide c).state.currentSlide = some ((s + 1) % c.slides.length) ∧
    (nextSlide c).state.slides = (clearActive c.slides).set ((s + 1) % c.slides.length) true := by
  have hne : c.slides.length ≠ 0 := by omega
  have hlt : (s + 1) % c.slides.length < c.slides.length := Nat.mod_lt _ (by omega)
  have hidx : nextIndex c.currentSlide c.slides.length = some ((s + 1) % c.slides.length) := by
    simp [nextIndex, hcur, hne]
  simp only [nextSlide, hidx]
  obtain ⟨h1, h2⟩ := showSlide_slides
    { c with currentSlide := some ((s + 1) % c.slides.length) } _ hlt
  exact ⟨h2, h1⟩

theorem nextSlideTimes_index (k : Nat) (c : Carousel) (s : Nat)
    (hcur : c.currentSlide = some s) (hs : s < c.slides.length) :
    (nextSlideTimes c k).currentSlide = some ((s + k) % c.slides.length) := by
  induction k generalizing c s with
  | zero => simp [nextSlideTimes, hcur, Nat.mod_eq_of_lt hs]
  | succ k ih =>
    obtain ⟨h1, h2⟩ := nextSlide_state c s hcur hs
    have hlen : (nextSlide c).state.slides.length = c.slides.length := by
      rw [h2]; simp [clearActive]
    have hlt : (s + 1) % c.slides.length < (nextSlide c).state.slides.length := by
      rw [hlen]; exact Nat.mod_lt _ (by omega)
    rw [nextSlideTimes, ih _ _ h1 hlt, hlen]
    congr 1
    rw [Nat.add_mod, Nat.mod_mod, ← Nat.add_mod]
    congr 1
    omega

/-- With no slide at all the first timer tick makes `currentSlide` `NaN` and
`showSlide` throws: the carousel claims need at least one slide. -/
theorem nextSlide_without_slides :
    nextSlide (Carousel.load [] []) = { state := ⟨[], [], none⟩, threw := true } := by
  decide

/-- With fewer indicators than slides a tick onto a slide without indicator
marks the slide, leaves no indicator marked and throws. -/
theorem nextSlide_missing_indicator :
    nextSlide ⟨[false, true, false], [false, true], some 1⟩ =
      { state := ⟨[false, false, true], [false, false], some 2⟩, threw := true } := by
  decide

/-- C1: for a carousel with equally many slides and indicators and a position
`n` below the slide count, whatever markers were set before, `showSlide(n)` does
not throw, keeps both counts, and leaves the `active` marker on slide `n` and on
indicator `n` and on no other slide or indicator; a click on indicator `n` sets
`currentSlide` to `n` and leaves these same markers, whatever `currentSlide` was. -/
theorem showSlide_marks_exactly (c : Carousel) (n : Nat)
    (hlen : c.indicators.length = c.slides.length) (hn : n < c.slides.length) :
    (showSlide c (some n)).threw = false ∧
    (showSlide c (some n)).state.slides.length = c.slides.length ∧
    (showSlide c (some n)).state.indicators.length = c.indicators.length ∧
    OnlyActiveAt (showSlide c (some n)).state.slides n ∧
    OnlyActiveAt (showSlide c (some n)).state.indicators n ∧
    (carouselStep c (.click n)).state.currentSlide = some n ∧
    (carouselStep c (.click n)).state.slides = (showSlide c (some n)).state.slides ∧
    (carouselStep c (.click n)).state.indicators = (showSlide c (some n)).state.indicators := by
  have hi : n < c.indicators.length := by omega
  have hclick : carouselStep c (.click n) = showSlide { c with currentSlide := some n } (some n) := by
    simp [carouselStep, hi, indicatorClick]
  rw [hclick, showSlide_in_range c n hn hi,
    showSlide_in_range { c with currentSlide := some n } n hn hi]
  exact ⟨rfl, by simp [clearActive], by simp [clearActive], onlyActiveAt_mark _ _,
    onlyActiveAt_mark _ _, rfl, rfl, rfl⟩

theorem showSlide_marks_exactly_witness :
    OnlyActiveAt (showSlide ⟨[true, true, false], [false, false, true], some 0⟩ (some 1)).state.slides 1 ∧
    (carouselStep ⟨[true, true, false], [false, false, true], some 0⟩ (.click 1)).state
      = ⟨[false, true, false], [false, true, false], some 1⟩ :=
  ⟨(showSlide_marks_exactly ⟨[true, true, false], [false, false, true], some 0⟩ 1
      (by decide) (by decide)).2.2.2.1, by decide⟩

/-- C2, as stated, fails: on a page with two slides and two indicators whose
markup marks none of them `active`, the state at page load (no event yet) has no
active slide, so the invariant does not hold from page load on. -/
theorem carousel_invariant_fails_at_load :
    ¬ CarouselInv (carouselRun (Carousel.load [false, false] [false, false]) []) := by
  intro h
  exact absurd h.2.1 (by decide)

/-- C2, amended: with at least one slide and as many indicators as slides,
(1) after every sequence of timer ticks and indicator clicks `currentSlide` is a
position below the slide count, which never changes; (2) when the markup at
page load satisfies the invariant, the invariant holds after every sequence of
events; (3) whatever the markup, after any sequence of events that ends with a
timer tick or a click on an existing indicator the invariant holds and the
active pair is at `currentSlide`. -/
theorem carousel_invariant (slides indicators : List Bool)
    (hpos : 0 < slides.length) (hlen : indicators.length = slides.length) :
    (∀ es, ∃ k, (carouselRun (Carousel.load slides indicators) es).currentSlide = some k ∧
        k < slides.length ∧
        (carouselRun (Carousel.load slides indicators) es).slides.length = slides.length) ∧
    (CarouselInv (Carousel.load slides indicators) →
      ∀ es, CarouselInv (carouselRun (Carousel.load slides indicators) es)) ∧
    (∀ es e, e.Effective (carouselRun (Carousel.load slides indicators) es) →
      CarouselInv (carouselRun (Carousel.load slides indicators) (es ++ [e])) ∧
      CarouselSynced (carouselRun (Carousel.load slides indicators) (es ++ [e]))) := by
  have h0 := load_shape slides indicators hpos hlen
  refine ⟨fun es => ?_, fun hinv es => (run_shape es _ h0).2.2 hinv, fun es e he => ?_⟩
  · obtain ⟨⟨_, _, k, hk, hklt⟩, h2, _⟩ := run_shape es _ h0
    have h2' : (carouselRun (Carousel.load slides indicators) es).slides.length = slides.length := h2
    exact ⟨k, hk, h2' ▸ hklt, h2'⟩
  · rw [run_append]
    obtain ⟨h1, h2, _⟩ := step_effective _ e (run_shape es _ h0).1 he
    exact ⟨h1, h2⟩

theorem carousel_invariant_witness :
    CarouselInv (carouselRun (Carousel.load [false, false, false] [true, true, false])
      ([.tick, .click 7] ++ [.click 2])) :=
  ((carousel_invariant [false, false, false] [true, true, false] (by decide) (by decide)).2.2
    [.tick, .click 7] (.click 2) (by decide)).1

/-- C3: for a carousel whose `currentSlide` is a position `s` below the slide
count `c` (so `c > 0`), one `nextSlide` sets `currentSlide` to `(s + 1) mod c`
and leaves the marker on exactly that slide (and, when there are as many
indicators as slides, on exactly that indicator, without throwing); `c`
consecutive runs of `nextSlide` bring `currentSlide` back to `s`. -/
theorem nextSlide_cycle (c : Carousel) (s : Nat)
    (hcur : c.currentSlide = some s) (hs : s < c.slides.length) :
    (nextSlide c).state.currentSlide = some ((s + 1) % c.slides.length) ∧
    (nextSlide c).state.slides.length = c.slides.length ∧
    OnlyActiveAt (nextSlide c).state.slides ((s + 1) % c.slides.length) ∧
    (c.indicators.length = c.slides.length →
      (nextSlide c).threw = false ∧
      OnlyActiveAt (nextSlide c).state.indicators ((s + 1) % c.slides.length)) ∧
    (nextSlideTimes c c.slides.length).currentSlide = some s := by
  obtain ⟨h1, h2⟩ := nextSlide_state c s hcur hs
  refine ⟨h1, by rw [h2]; simp [clearActive], by rw [h2]; exact onlyActiveAt_mark _ _, ?_, ?_⟩
  · intro hlen
    have hne : c.slides.length ≠ 0 := by omega
    have hlt : (s + 1) % c.slides.length < c.slides.length := Nat.mod_lt _ (by omega)
    have hidx : nextIndex c.currentSlide c.slides.length = some ((s + 1) % c.slides.length) := by
      simp [nextIndex, hcur, hne]
    simp only [nextSlide, hidx]
    have h := showSlide_in_range
      { c with currentSlide := some ((s + 1) % c.slides.length) } _ hlt (by simpa [hlen] using hlt)
    rw [h]
    exact ⟨rfl, onlyActiveAt_mark _ _⟩
  · rw [nextSlideTimes_index _ c s hcur hs, Nat.add_mod_right, Nat.mod_eq_of_lt hs]

theorem nextSlide_cycle_witness :
    (nextSlide ⟨[true, false, false], [true, false], some 2⟩).state.currentSlide = some 0 ∧
    (nextSlideTimes ⟨[true, false, false], [true, false], some 2⟩ 3).currentSlide = some 2 :=
  ⟨(nextSlide_cycle ⟨[true, false, false], [true, false], some 2⟩ 2 rfl (by decide)).1,
   (nextSlide_cycle ⟨[true, false, false], [true, false], some 2⟩ 2 rfl (by decide)).2.2.2.2⟩

/-! ## Theorems: mobile-menu.js -/

theorem hamburgerClick_both (h m : Bool) :
    hamburgerClick ⟨some h, some m⟩ = { state := ⟨some (!h), some (!m)⟩, threw := false } := rfl

/-- A hamburger click on a page without the panel toggles the hamburger and
then throws. -/
theorem hamburgerClick_without_panel (h : Bool) :
    hamburgerClick ⟨some h, none⟩ = { state := ⟨some (!h), none⟩, threw := true } := rfl

/-- C4: for every initial marker state `h` of the hamburger and `m` of the
panel (equal or not) and every `k`, after `k` hamburger clicks both elements
have their original marker when `k` is even and both have it flipped when `k` is
odd. -/
theorem hamburgerClicks_parity (h m : Bool) (k : Nat) :
    hamburgerClicks ⟨some h, some m⟩ k =
      ⟨some (if k % 2 = 0 then h else !h), some (if k % 2 = 0 then m else !m)⟩ := by
  induction k generalizing h m with
  | zero => rfl
  | succ k ih =>
    rw [hamburgerClicks, hamburgerClick_both, ih]
    rcases Nat.mod_two_eq_zero_or_one k with hk | hk
    · have h2 : (k + 1) % 2 = 1 := by omega
      simp [hk, h2]
    · have h2 : (k + 1) % 2 = 0 := by omega
      simp [hk, h2]

/-- C5: for every prior marker state of the hamburger and the panel, a click on
an anchor inside the panel leaves the `active` marker absent on both elements,
does not throw, and a second such click changes nothing. -/
theorem menuLinkClick_closes (h m : Bool) :
    (menuLinkClick ⟨some h, some m⟩).state = ⟨some false, some false⟩ ∧
    (menuLinkClick ⟨some h, some m⟩).threw = false ∧
    (menuLinkClick (menuLinkClick ⟨some h, some m⟩).state).state =
      (menuLinkClick ⟨some h, some m⟩).state :=
  ⟨rfl, rfl, rfl⟩

/-! ## Theorems: exercise-plan.js -/

theorem append_left_cancel (a s t : String) (h : a ++ s = a ++ t) : s = t := by
  have h2 := congrArg String.data h
  simp only [String.data_append, List.append_cancel_left_eq] at h2
  exact String.ext h2

theorem forEachLoop_append (R : JsVal → String → Prop) (body : JsVal → String → Option String)
    (hbody : ∀ x acc out, body x acc = some out ↔ ∃ s, R x s ∧ out = acc ++ s)
    (xs : List JsVal) (acc out : String) :
    forEachLoop body xs acc = some out ↔
      ∃ ss, List.Forall₂ R xs ss ∧ out = acc ++ concatAll ss := by
  induction xs generalizing acc with
  | nil =>
    simp only [forEachLoop, Option.some.injEq]
    constructor
    · intro h
      exact ⟨[], List.Forall₂.nil, by simp [concatAll, ← h]⟩
    · rintro ⟨ss, hss, rfl⟩
      cases hss
      simp [concatAll]
  | cons x xs ih =>
    simp only [forEachLoop]
    cases hx : body x acc with
    | none =>
      simp only
      constructor
      · intro h; cases h
      · rintro ⟨ss, hss, _⟩
        cases hss with
        | cons h1 _ =>
          have := (hbody x acc _).2 ⟨_, h1, rfl⟩
          rw [hx] at this; cases this
    | some mid =>
      simp only
      obtain ⟨s, hs, rfl⟩ := (hbody x acc mid).1 hx
      rw [ih]
      constructor
      · rintro ⟨ss, hss, rfl⟩
        exact ⟨s :: ss, List.Forall₂.cons hs hss, by simp [concatAll, String.append_assoc]⟩
      · rintro ⟨ss, hss, rfl⟩
        cases hss with
        | cons h1 h2 =>
          have h3 := (hbody x acc _).2 ⟨_, h1, rfl⟩
          rw [hx] at h3
          simp only [Option.some.injEq] at h3
          have h4 := append_left_cancel _ _ _ h3
          subst h4
          exact ⟨_, h2, by simp [concatAll, String.append_assoc]⟩

theorem truthy_false_toStr (v : JsVal) (h : v.truthy = false) : ∃ t, v.toStr = some t := by
  cases v <;> simp_all [truthy, toStr]

theorem fragment_iff (g : String → String) (pre post : String)
    (hg : ∀ t, g t = pre ++ t ++ post) (v : JsVal) (out : String) :
    (if v.truthy = true then v.toStr.map g else some "") = some out ↔
      ∃ t, v.toStr = some t ∧ out = optFragment pre post (shownField v t) := by
  by_cases hv : v.truthy = true
  · simp only [hv, if_true, Option.map_eq_some', shownField, optFragment, hg]
    constructor
    · rintro ⟨t, ht, rfl⟩; exact ⟨t, ht, rfl⟩
    · rintro ⟨t, ht, rfl⟩; exact ⟨t, ht, rfl⟩
  · have hv' : v.truthy = false := by simpa using hv
    obtain ⟨t, ht⟩ := truthy_false_toStr v hv'
    simp only [hv', Bool.false_eq_true, if_false, Option.some.injEq, shownField, optFragment]
    constructor
    · intro h; exact ⟨t, ht, h.symm⟩
    · rintro ⟨_, _, h⟩; exact h.symm

theorem setsFragment_iff (v : JsVal) (out : String) :
    setsFragment v = some out ↔
      ∃ t, v.toStr = some t ∧ out = optFragment " - " " sets" (shownField v t) :=
  fragment_iff _ _ _ (fun _ => rfl) v out

theorem repsFragment_iff (v : JsVal) (out : String) :
    repsFragment v = some out ↔
      ∃ t, v.toStr = some t ∧ out = optFragment " x " "" (shownField v t) :=
  fragment_iff _ _ _ (fun t => by simp) v out

theorem durationFragment_iff (v : JsVal) (out : String) :
    durationFragment v = some out ↔
      ∃ t, v.toStr = some t ∧ out = optFragment " (" ")" (shownField v t) :=
  fragment_iff _ _ _ (fun _ => rfl) v out

theorem exerciseItem_iff (ex : JsVal) (item : String) :
    exerciseItem ex = some item ↔ ItemOf ex item := by
  unfold exerciseItem ItemOf exerciseItemText
  simp only [Option.bind_eq_bind, Option.bind_eq_some, Option.some.injEq,
    setsFragment_iff, repsFragment_iff, durationFragment_iff]
  constructor
  · rintro ⟨name, hname, s, ⟨vs, hvs, ts, hts, rfl⟩, r, ⟨vr, hvr, tr, htr, rfl⟩,
      d, ⟨vd, hvd, td, htd, rfl⟩, rfl⟩
    exact ⟨name, vs, vr, vd, ts, tr, td, hname, hvs, hts, hvr, htr, hvd, htd, rfl⟩
  · rintro ⟨name, vs, vr, vd, ts, tr, td, hname, hvs, hts, hvr, htr, hvd, htd, rfl⟩
    exact ⟨name, hname, _, ⟨vs, hvs, ts, hts, rfl⟩, _, ⟨vr, hvr, tr, htr, rfl⟩,
      _, ⟨vd, hvd, td, htd, rfl⟩, rfl⟩

theorem exerciseBody_iff (ex : JsVal) (acc out : String) :
    exerciseBody ex acc = some out ↔ ∃ s, ItemOf ex s ∧ out = acc ++ s := by
  simp only [exerciseBody, Option.map_eq_some', exerciseItem_iff]
  constructor
  · rintro ⟨s, hs, rfl⟩; exact ⟨s, hs, rfl⟩
  · rintro ⟨s, hs, rfl⟩; exact ⟨s, hs, rfl⟩

theorem forEach_iff (R : JsVal → String → Prop) (body : JsVal → String → Option String)
    (hbody : ∀ x acc out, body x acc = some out ↔ ∃ s, R x s ∧ out = acc ++ s)
    (v : JsVal) (acc out : String) :
    forEach v body acc = some out ↔
      ∃ xs ss, v = .arr xs ∧ List.Forall₂ R xs ss ∧ out = acc ++ concatAll ss := by
  cases v with
  | arr xs =>
    simp only [forEach, forEachLoop_append R body hbody, JsVal.arr.injEq]
    constructor
    · rintro ⟨ss, h, rfl⟩; exact ⟨xs, ss, rfl, h, rfl⟩
    · rintro ⟨_, ss, rfl, h, rfl⟩; exact ⟨ss, h, rfl⟩
  | _ => simp [forEach]

theorem dayBody_iff (day : JsVal) (acc out : String) :
    dayBody day acc = some out ↔ ∃ s, DayBlockOf day s ∧ out = acc ++ s := by
  unfold dayBody DayBlockOf
  simp only [Option.bind_eq_bind, Option.bind_eq_some, Option.some.injEq,
    forEach_iff ItemOf exerciseBody exerciseBody_iff]
  constructor
  · rintro ⟨head, hhead, exs, hexs, _, ⟨xs, items, rfl, hitems, rfl⟩, rfl⟩
    exact ⟨_, ⟨head, xs, items, hhead, hexs, hitems, rfl⟩, by simp [String.append_assoc]⟩
  · rintro ⟨_, ⟨head, xs, items, hhead, hexs, hitems, rfl⟩, rfl⟩
    exact ⟨head, hhead, _, hexs, _, ⟨xs, items, rfl, hitems, rfl⟩,
      by simp [String.append_assoc]⟩

theorem noteBody_iff (note : JsVal) (acc out : String) :
    noteBody note acc = some out ↔
      ∃ s, (∃ t, note.toStr = some t ∧ s = noteItem t) ∧ out = acc ++ s := by
  simp only [noteBody, Option.map_eq_some']
  constructor
  · rintro ⟨t, ht, rfl⟩; exact ⟨_, ⟨t, ht, rfl⟩, rfl⟩
  · rintro ⟨_, ⟨t, ht, rfl⟩, rfl⟩; exact ⟨t, ht, rfl⟩

theorem forall₂_noteItem (ns : List JsVal) (ss : List String) :
    List.Forall₂ (fun n s => ∃ t, n.toStr = some t ∧ s = noteItem t) ns ss ↔
      ∃ ts, List.Forall₂ (fun n t => n.toStr = some t) ns ts ∧ ss = ts.map noteItem := by
  induction ns generalizing ss with
  | nil =>
    constructor
    · intro h; cases h; exact ⟨[], List.Forall₂.nil, rfl⟩
    · rintro ⟨ts, h, rfl⟩; cases h; exact List.Forall₂.nil
  | cons n ns ih =>
    constructor
    · intro h
      cases h with
      | cons h1 h2 =>
        obtain ⟨t, ht, rfl⟩ := h1
        obtain ⟨ts, hts, rfl⟩ := (ih _).1 h2
        exact ⟨t :: ts, List.Forall₂.cons ht hts, rfl⟩
    · rintro ⟨ts, h, rfl⟩
      cases h with
      | cons h1 h2 =>
        exact List.Forall₂.cons ⟨_, h1, rfl⟩ ((ih _).2 ⟨_, h2, rfl⟩)

theorem nutritionSection_iff (plan : JsVal) (acc out : String) :
    nutritionSection plan acc = some out ↔
      ∃ nf s, getProp plan "nutrition_focus" = some nf ∧ NutritionPartOf nf s ∧
        out = acc ++ s := by
  unfold nutritionSection NutritionPartOf
  simp only [Option.bind_eq_bind, Option.bind_eq_some]
  constructor
  · rintro ⟨nf, hnf, h⟩
    by_cases hv : nf.truthy = true
    · simp only [hv, if_true, Option.bind_eq_some, Option.some.injEq] at h
      obtain ⟨t, ht, rfl⟩ := h
      exact ⟨nf, _, hnf, Or.inr ⟨hv, t, ht, rfl⟩, rfl⟩
    · have hv' : nf.truthy = false := by simpa using hv
      simp only [hv', Bool.false_eq_true, if_false, Option.some.injEq] at h
      exact ⟨nf, "", hnf, Or.inl ⟨hv', rfl⟩, by simp [← h]⟩
  · rintro ⟨nf, s, hnf, h | h, rfl⟩
    · obtain ⟨hv, rfl⟩ := h
      exact ⟨nf, hnf, by simp [hv]⟩
    · obtain ⟨hv, t, ht, rfl⟩ := h
      exact ⟨nf, hnf, by simp [hv, ht]⟩

theorem notesSection_iff (plan : JsVal) (acc out : String) :
    notesSection plan acc = some out ↔
      ∃ notes s, getProp plan "important_notes" = some notes ∧ NotesPartOf notes s ∧
        out = acc ++ s := by
  unfold notesSection NotesPartOf
  simp only [Option.bind_eq_bind, Option.bind_eq_some]
  constructor
  · rintro ⟨notes, hn, h⟩
    by_cases hv : notes.truthy = true
    · simp only [hv, if_true, Option.bind_eq_some, Option.some.injEq,
        forEach_iff _ noteBody noteBody_iff, forall₂_noteItem] at h
      obtain ⟨_, ⟨ns, _, rfl, ⟨ts, hts, rfl⟩, rfl⟩, rfl⟩ := h
      exact ⟨_, _, hn, Or.inr ⟨hv, ns, ts, rfl, hts, rfl⟩, by simp [String.append_assoc]⟩
    · have hv' : notes.truthy = false := by simpa using hv
      simp only [hv', Bool.false_eq_true, if_false, Option.some.injEq] at h
      exact ⟨notes, "", hn, Or.inl ⟨hv', rfl⟩, by simp [← h]⟩
  · rintro ⟨notes, s, hn, h | h, rfl⟩
    · obtain ⟨hv, rfl⟩ := h
      exact ⟨notes, hn, by simp [hv]⟩
    · obtain ⟨hv, ns, ts, rfl, hts, rfl⟩ := h
      refine ⟨_, hn, ?_⟩
      simp only [hv, if_true, Option.bind_eq_some, Option.some.injEq,
        forEach_iff _ noteBody noteBody_iff, forall₂_noteItem]
      exact ⟨_, ⟨ns, _, rfl, ⟨ts, hts, rfl⟩, rfl⟩, by simp [String.append_assoc]⟩

theorem buildPlanHTML_iff (data : JsVal) (html : String) :
    buildPlanHTML data = some html ↔ PlanMarkupOf data html := by
  unfold buildPlanHTML PlanMarkupOf
  simp only [Option.bind_eq_bind, Option.bind_eq_some,
    forEach_iff DayBlockOf dayBody dayBody_iff, nutritionSection_iff, notesSection_iff]
  constructor
  · rintro ⟨header, hh, plan, hp, _, hd, _, ⟨days, blocks, rfl, hb, rfl⟩,
      _, ⟨nf, nutrition, hnf, hN, rfl⟩, notes, notesPart, hno, hP, rfl⟩
    exact ⟨header, plan, days, blocks, nf, nutrition, notes, notesPart,
      hh, hp, hd, hb, hnf, hN, hno, hP, rfl⟩
  · rintro ⟨header, plan, days, blocks, nf, nutrition, notes, notesPart,
      hh, hp, hd, hb, hnf, hN, hno, hP, rfl⟩
    exact ⟨header, hh, plan, hp, _, hd, _, ⟨days, blocks, rfl, hb, rfl⟩,
      _, ⟨nf, nutrition, hnf, hN, rfl⟩, notes, notesPart, hno, hP, rfl⟩

set_option maxRecDepth 100000 in
/-- C6, as stated, fails: for the one-day, one-exercise plan with `sets = 3` and
`reps = 10` the built HTML does not contain the text ` - 3 sets x 10` (the two
fragments sit on separate template lines), and with `sets = 0` (present) and
`reps = 10` it contains no sets fragment ` - 0 sets` at all. -/
theorem one_exercise_text_absent :
    (buildPlanHTML (onePlan "Squat" (.num 3) (.num 10))).map
        (fun html => containsText html " - 3 sets x 10") = some false ∧
    (buildPlanHTML (onePlan "Squat" (.num 0) (.num 10))).map
        (fun html => containsText html " - 0 sets") = some false := by
  decide

/-- C6, amended: when the plan has exactly one day with exactly one exercise
that has a name, truthy `sets` and `reps` (printed `ts` and `tr`) and no
duration, and the other interpolated fields can be printed, `buildPlanHTML`
returns the HTML in which the exercise item holds the name inside its `span`,
then ` - ts sets`, then ` x tr`, each on its own template line (a line break
and ten spaces apart), and an empty duration line. -/
theorem one_exercise_markup (data plan day ex vs vr nf notes : JsVal)
    (header head name ts tr nutrition notesPart : String)
    (hheader : planHeader data = some header)
    (hplan : getProp data "plan" = some plan)
    (hdays : getProp plan "weekly_plan" = some (.arr [day]))
    (hhead : dayHead day = some head)
    (hexs : getProp day "exercises" = some (.arr [ex]))
    (hname : interp ex "name" = some name)
    (hsets : getProp ex "sets" = some vs) (hvs : vs.truthy = true) (hts : vs.toStr = some ts)
    (hreps : getProp ex "reps" = some vr) (hvr : vr.truthy = true) (htr : vr.toStr = some tr)
    (hdur : getProp ex "duration" = some .undefined)
    (hnf : getProp plan "nutrition_focus" = some nf) (hnutrition : NutritionPartOf nf nutrition)
    (hnotes : getProp plan "important_notes" = some notes) (hnotesPart : NotesPartOf notes notesPart) :
    buildPlanHTML data = some (header
      ++ (head
        ++ ("\n        <li class=\"exercise-item\">\n          <span class=\"exercise-name\">"
          ++ name ++ "</span>\n          " ++ (" - " ++ ts ++ " sets")
          ++ "\n          " ++ (" x " ++ tr)
          ++ "\n          " ++ "" ++ "\n        </li>\n      ")
        ++ dayTail)
      ++ "</div>" ++ nutrition ++ notesPart) := by
  rw [buildPlanHTML_iff]
  refine ⟨header, plan, [day], [_], nf, nutrition, notes, notesPart, hheader, hplan, hdays,
    List.Forall₂.cons ⟨head, [ex], [_], hhead, hexs, List.Forall₂.cons
      ⟨name, vs, vr, .undefined, ts, tr, "undefined", hname, hsets, hts, hreps, htr, hdur, rfl, rfl⟩
      List.Forall₂.nil, rfl⟩ List.Forall₂.nil, hnf, hnutrition, hnotes, hnotesPart, ?_⟩
  have hu : truthy .undefined = false := rfl
  simp [concatAll, exerciseItemText, shownField, optFragment, hvs, hvr, hu]

set_option maxRecDepth 100000 in
theorem one_exercise_markup_witness :
    (buildPlanHTML (onePlan "Squat" (.num 3) (.num 10))).map
      (fun html => containsText html
        "Squat</span>\n           - 3 sets\n           x 10\n          \n        </li>") = some true := by
  have h := one_exercise_markup (onePlan "Squat" (.num 3) (.num 10))
    (.obj [("category", .str "Maintain"), ("focus", .str "Strength"),
      ("weekly_frequency", .str "3 days"),
      ("weekly_plan", .arr [.obj [("day", .str "Monday"), ("focus", .str "Legs"),
        ("exercises", .arr [.obj [("name", .str "Squat"), ("sets", .num 3), ("reps", .num 10)]])]])])
    (.obj [("day", .str "Monday"), ("focus", .str "Legs"),
        ("exercises", .arr [.obj [("name", .str "Squat"), ("sets", .num 3), ("reps", .num 10)]])])
    (.obj [("name", .str "Squat"), ("sets", .num 3), ("reps", .num 10)])
    (.num 3) (.num 10) .undefined .undefined
    "\n    <div class=\"plan-header\">\n      <h3>Maintain</h3>\n      <p>Focus: Strength</p>\n      <p>Weekly Frequency: 3 days</p>\n    </div>\n    \n    <div class=\"weekly-plan\">\n  "
    "\n      <div class=\"day-plan\">\n        <h4>Monday</h4>\n        <p>Legs</p>\n        <ul class=\"exercises-list\">\n    "
    "Squat" "3" "10" "" ""
    (by decide) rfl rfl (by decide) rfl (by decide) rfl
    rfl (by decide) rfl rfl (by decide) rfl rfl
    (Or.inl ⟨rfl, rfl⟩) rfl (Or.inl ⟨rfl, rfl⟩)
  rw [h]
  decide

theorem dayBlockOf_iff (day : JsVal) (s : String) :
    DayBlockOf day s ↔ dayBody day "" = some s := by
  rw [dayBody_iff]
  constructor
  · intro h; exact ⟨s, h, by simp⟩
  · rintro ⟨s', h, rfl⟩; simpa using h

set_option maxRecDepth 100000 in
/-- C7, as stated, fails: for an exercise with `sets = 3` and `reps = 10` the
item contains ` x 10` but not ` x 10 reps` (the template never writes the word
`reps`), and for an exercise with `sets = 0` (present) the item contains no
sets fragment. -/
theorem reps_fragment_has_no_word :
    (exerciseItem (.obj [("name", .str "Squat"), ("sets", .num 3), ("reps", .num 10)])).map
        (fun item => (containsText item " x 10", containsText item " x 10 reps"))
      = some (true, false) ∧
    (exerciseItem (.obj [("name", .str "Plank"), ("sets", .num 0), ("duration", .str "60s")])).map
        (fun item => containsText item " sets") = some false := by
  decide

/-- C7, amended: `exerciseItem` returns an item exactly when the name and the
three fields can be read and printed, and the item is then the item template
holding the name followed by the fragments ` - N sets`, ` x N` and
` (duration)`, in this order, each on its own template line and each emitted if
and only if its own field is truthy (present and not `null`, `false`, `0` or
the empty string), whatever the other two fields are; a day block is the day
head, the items of its exercises in list order and the day tail; the day loop
appends the day blocks in list order. -/
theorem exercise_item_structure :
    (∀ ex item, exerciseItem ex = some item ↔
      ∃ name vs vr vd ts tr td,
        interp ex "name" = some name ∧
        getProp ex "sets" = some vs ∧ vs.toStr = some ts ∧
        getProp ex "reps" = some vr ∧ vr.toStr = some tr ∧
        getProp ex "duration" = some vd ∧ vd.toStr = some td ∧
        item =
          "\n        <li class=\"exercise-item\">\n          <span class=\"exercise-name\">"
          ++ name ++ "</span>\n          "
          ++ (if vs.truthy = true then " - " ++ ts ++ " sets" else "") ++ "\n          "
          ++ (if vr.truthy = true then " x " ++ tr else "") ++ "\n          "
          ++ (if vd.truthy = true then " (" ++ td ++ ")" else "") ++ "\n        </li>\n      ") ∧
    (∀ day acc out, dayBody day acc = some out ↔
      ∃ head exercises items,
        dayHead day = some head ∧ getProp day "exercises" = some (.arr exercises) ∧
        List.Forall₂ (fun ex item => exerciseItem ex = some item) exercises items ∧
        out = acc ++ (head ++ concatAll items ++ dayTail)) ∧
    (∀ days acc out, forEach (.arr days) dayBody acc = some out ↔
      ∃ blocks, List.Forall₂ (fun day block => dayBody day "" = some block) days blocks ∧
        out = acc ++ concatAll blocks) := by
  refine ⟨fun ex item => ?_, fun day acc out => ?_, fun days acc out => ?_⟩
  · rw [exerciseItem_iff]
    unfold ItemOf exerciseItemText shownField optFragment
    constructor
    · rintro ⟨name, vs, vr, vd, ts, tr, td, h1, h2, h3, h4, h5, h6, h7, rfl⟩
      refine ⟨name, vs, vr, vd, ts, tr, td, h1, h2, h3, h4, h5, h6, h7, ?_⟩
      cases vs.truthy <;> cases vr.truthy <;> cases vd.truthy <;> simp
    · rintro ⟨name, vs, vr, vd, ts, tr, td, h1, h2, h3, h4, h5, h6, h7, rfl⟩
      refine ⟨name, vs, vr, vd, ts, tr, td, h1, h2, h3, h4, h5, h6, h7, ?_⟩
      cases vs.truthy <;> cases vr.truthy <;> cases vd.truthy <;> simp
  · rw [dayBody_iff]
    unfold DayBlockOf
    constructor
    · rintro ⟨_, ⟨head, exs, items, h1, h2, h3, rfl⟩, rfl⟩
      exact ⟨head, exs, items, h1, h2, h3.imp fun _ _ h => (exerciseItem_iff _ _).2 h, rfl⟩
    · rintro ⟨head, exs, items, h1, h2, h3, rfl⟩
      exact ⟨_, ⟨head, exs, items, h1, h2, h3.imp fun _ _ h => (exerciseItem_iff _ _).1 h, rfl⟩,
        rfl⟩
  · rw [forEach_iff DayBlockOf dayBody dayBody_iff]
    constructor
    · rintro ⟨_, blocks, h, hb, rfl⟩
      cases h
      exact ⟨blocks, hb.imp fun _ _ h => (dayBlockOf_iff _ _).1 h, rfl⟩
    · rintro ⟨blocks, hb, rfl⟩
      exact ⟨days, blocks, rfl, hb.imp fun _ _ h => (dayBlockOf_iff _ _).2 h, rfl⟩

set_option maxRecDepth 100000 in
/-- An exercise with a name and a duration only: the item has empty sets and
reps lines and the duration fragment. -/
theorem exercise_item_structure_witness :
    exerciseItem (.obj [("name", .str "Plank"), ("duration", .str "60s")]) =
      some ("\n        <li class=\"exercise-item\">\n          <span class=\"exercise-name\">"
        ++ "Plank" ++ "</span>\n          " ++ "" ++ "\n          " ++ "" ++ "\n          "
        ++ (" (" ++ "60s" ++ ")") ++ "\n        </li>\n      ") :=
  (exercise_item_structure.1 _ _).2
    ⟨"Plank", .undefined, .undefined, .str "60s", "undefined", "undefined", "60s",
      by decide, rfl, rfl, rfl, rfl, rfl, rfl, by decide⟩

theorem lookup_absent (key : String) (fs : List (String × JsVal))
    (h : ∀ q ∈ fs, q.1 ≠ key) : lookup key fs = .undefined := by
  induction fs with
  | nil => rfl
  | cons q rest ih =>
    obtain ⟨k, v⟩ := q
    have hk : k ≠ key := h (k, v) (List.mem_cons_self _ _)
    have hrest : ∀ q ∈ rest, q.1 ≠ key := fun q hq => h q (List.mem_cons_of_mem _ hq)
    have hany : rest.any (fun q => q.1 == key) = false := by
      simp only [List.any_eq_false, beq_iff_eq]
      exact fun q hq => hrest q hq
    simp [lookup, hany, hk]

theorem nutritionPartOf_undefined (s : String) : NutritionPartOf .undefined s ↔ s = "" := by
  unfold NutritionPartOf
  have hu : truthy .undefined = false := rfl
  simp [hu]

theorem notesPartOf_undefined (s : String) : NotesPartOf .undefined s ↔ s = "" := by
  unfold NotesPartOf
  have hu : truthy .undefined = false := rfl
  simp [hu]

set_option maxRecDepth 100000 in
/-- C8, as stated, fails: a plan whose `nutrition_focus` is present with the
empty string as value is rendered without a nutrition block. -/
theorem empty_nutrition_focus_has_no_block :
    (getProp (emptyPlan [("nutrition_focus", .str "")]) "plan").bind
        (fun plan => getProp plan "nutrition_focus") = some (.str "") ∧
    (buildPlanHTML (emptyPlan [("nutrition_focus", .str "")])).map
        (fun html => containsText html "Nutrition Focus") = some false := by
  refine ⟨rfl, ?_⟩
  decide

/-- C8, amended: `buildPlanHTML` returns `html` exactly when `html` is the
header, the day blocks in list order, the closing tag, then the nutrition part
and then the notes part, where the nutrition part is the nutrition block when
`nutrition_focus` is truthy and empty otherwise, and the notes part is the notes
block with one list item per note in list order when `important_notes` is a
truthy value (which must be a list) and empty otherwise; a field that is not in
the object reads as `undefined`, for which both parts are empty. -/
theorem optional_sections :
    (∀ data html, buildPlanHTML data = some html ↔
      ∃ header plan days blocks nf nutrition notes notesPart,
        planHeader data = some header ∧ getProp data "plan" = some plan ∧
        getProp plan "weekly_plan" = some (.arr days) ∧
        List.Forall₂ (fun day block => dayBody day "" = some block) days blocks ∧
        getProp plan "nutrition_focus" = some nf ∧ NutritionPartOf nf nutrition ∧
        getProp plan "important_notes" = some notes ∧ NotesPartOf notes notesPart ∧
        html = header ++ concatAll blocks ++ "</div>" ++ nutrition ++ notesPart) ∧
    (∀ fs key, (∀ q ∈ fs, q.1 ≠ key) → getProp (.obj fs) key = some .undefined) ∧
    (∀ s, NutritionPartOf .undefined s ↔ s = "") ∧
    (∀ s, NotesPartOf .undefined s ↔ s = "") := by
  refine ⟨fun data html => ?_, fun fs key h => by simp [getProp, lookup_absent key fs h],
    nutritionPartOf_undefined, notesPartOf_undefined⟩
  rw [buildPlanHTML_iff]
  unfold PlanMarkupOf
  constructor
  · rintro ⟨header, plan, days, blocks, nf, nutrition, notes, notesPart,
      h1, h2, h3, h4, h5, h6, h7, h8, rfl⟩
    exact ⟨header, plan, days, blocks, nf, nutrition, notes, notesPart,
      h1, h2, h3, h4.imp fun _ _ h => (dayBlockOf_iff _ _).1 h, h5, h6, h7, h8, rfl⟩
  · rintro ⟨header, plan, days, blocks, nf, nutrition, notes, notesPart,
      h1, h2, h3, h4, h5, h6, h7, h8, rfl⟩
    exact ⟨header, plan, days, blocks, nf, nutrition, notes, notesPart,
      h1, h2, h3, h4.imp fun _ _ h => (dayBlockOf_iff _ _).2 h, h5, h6, h7, h8, rfl⟩

set_option maxRecDepth 100000 in
theorem optional_sections_witness :
    buildPlanHTML (emptyPlan [("nutrition_focus", .str "Protein"),
        ("important_notes", .arr [.str "Warm up", .str "Hydrate"])]) =
      some ("\n    <div class=\"plan-header\">\n      <h3>Maintain</h3>\n      <p>Focus: Strength</p>\n      <p>Weekly Frequency: 3 days</p>\n    </div>\n    \n    <div class=\"weekly-plan\">\n  "
        ++ concatAll [] ++ "</div>" ++ nutritionBlock "Protein"
        ++ (notesHead ++ concatAll [noteItem "Warm up", noteItem "Hydrate"] ++ notesTail)) :=
  (optional_sections.1 _ _).2 ⟨_, _, [], [], .str "Protein", _, .arr [.str "Warm up", .str "Hydrate"], _,
    rfl, rfl, rfl, List.Forall₂.nil, rfl, Or.inr ⟨rfl, "Protein", rfl, rfl⟩,
    rfl, Or.inr ⟨rfl, _, ["Warm up", "Hydrate"], rfl,
      List.Forall₂.cons rfl (List.Forall₂.cons rfl List.Forall₂.nil), rfl⟩, rfl⟩

theorem showError_str (q : PlanPage) (m : String) :
    showError q (.str m) =
      { state := { q with errorMessage := m, errorDisplay := "block" }, threw := false } := rfl

theorem displayPlan_threw (q : PlanPage) (data : JsVal) :
    (displayPlan q data).threw = true →
      (displayPlan q data).state.resultsDisplay = q.resultsDisplay := by
  unfold displayPlan
  cases (getProp data "bmi").bind toText with
  | none => intro _; rfl
  | some bmi =>
    cases (getProp data "category").bind toText with
    | none => intro _; rfl
    | some category =>
      cases buildPlanHTML data with
      | none => intro _; rfl
      | some html => intro h; simp at h

theorem showError_results (q : PlanPage) (v : JsVal) :
    (showError q v).state.resultsDisplay = q.resultsDisplay := by
  unfold showError
  cases v.toText <;> rfl

theorem tryBlock_threw (q : PlanPage) (a : Attempt) :
    (tryBlock q a).threw = true → (tryBlock q a).state.resultsDisplay = q.resultsDisplay := by
  cases a with
  | failed => intro _; rfl
  | responded result =>
    simp only [tryBlock]
    cases getProp result "success" with
    | none => intro _; rfl
    | some success =>
      by_cases hs : success.truthy = true
      · simp only [hs, if_true]
        cases getProp result "data" with
        | none => intro _; rfl
        | some data => exact displayPlan_threw q data
      · simp only [hs, if_false]
        cases getProp result "error" with
        | none => intro _; rfl
        | some error => intro _; exact showError_results q error

/-- C9: for every prior page state and every response whose `success` is
`false` and whose `error` is the string `m`, after the submit handler settles the
error panel is shown (`block`), the error message text is `m`, the results
panel is hidden (`none`), the loading panel is hidden (`none`), and the handler
has not thrown. -/
theorem submit_explicit_failure (p : PlanPage) (result : JsVal) (m : String)
    (hs : getProp result "success" = some (.bool false))
    (he : getProp result "error" = some (.str m)) :
    (submit p (.responded result)).state.errorDisplay = "block" ∧
    (submit p (.responded result)).state.errorMessage = m ∧
    (submit p (.responded result)).state.resultsDisplay = "none" ∧
    (submit p (.responded result)).state.loadingDisplay = "none" ∧
    (submit p (.responded result)).threw = false := by
  have ht : tryBlock (beginSubmit p) (.responded result) = showError (beginSubmit p) (.str m) := by
    simp [tryBlock, hs, he, truthy]
  simp only [submit, ht, showError_str]
  simp [beginSubmit]

theorem submit_explicit_failure_witness :
    (submit ⟨"flex", "none", "none", "22", "Normal", "<p>old</p>", ""⟩
      (.responded (.obj [("success", .bool false), ("error", .str "Invalid weight")]))).state.errorDisplay
      = "block" ∧
    (submit ⟨"flex", "none", "none", "22", "Normal", "<p>old</p>", ""⟩
      (.responded (.obj [("success", .bool false), ("error", .str "Invalid weight")]))).state.errorMessage
      = "Invalid weight" ∧
    (submit ⟨"flex", "none", "none", "22", "Normal", "<p>old</p>", ""⟩
      (.responded (.obj [("success", .bool false), ("error", .str "Invalid weight")]))).state.resultsDisplay
      = "none" :=
  have h := submit_explicit_failure ⟨"flex", "none", "none", "22", "Normal", "<p>old</p>", ""⟩
    (.obj [("success", .bool false), ("error", .str "Invalid weight")]) "Invalid weight" rfl rfl
  ⟨h.1, h.2.1, h.2.2.1⟩

/-- C10: for every prior page state and every outcome of the attempt, when the
`try` block throws, the error panel is shown with exactly the message
`Failed to generate plan. Please try again.` and the results panel stays hidden;
the loading panel is hidden once the handler settles in every outcome; a
failed request or body is such a throw, and so is a throw inside `displayPlan`
on a success payload. -/
theorem submit_exception (p : PlanPage) (a : Attempt) :
    ((tryBlock (beginSubmit p) a).threw = true →
      (submit p a).state.errorDisplay = "block" ∧
      (submit p a).state.errorMessage = "Failed to generate plan. Please try again." ∧
      (submit p a).state.resultsDisplay = "none" ∧
      (submit p a).threw = false) ∧
    (submit p a).state.loadingDisplay = "none" ∧
    (tryBlock (beginSubmit p) .failed).threw = true ∧
    (∀ result success data, a = .responded result → getProp result "success" = some success →
      success.truthy = true → getProp result "data" = some data →
      (displayPlan (beginSubmit p) data).threw = true →
      (tryBlock (beginSubmit p) a).threw = true) := by
  refine ⟨fun h => ?_, rfl, rfl, ?_⟩
  · have hr := tryBlock_threw (beginSubmit p) a h
    have hb : (beginSubmit p).resultsDisplay = "none" := rfl
    simp only [submit, h, if_true, showError_str]
    simp [hr, hb, fallbackMessage]
  · rintro result success data rfl h1 h2 h3 h4
    simp [tryBlock, h1, h2, h3, h4]

theorem submit_exception_witness :
    (tryBlock (beginSubmit ⟨"flex", "none", "none", "", "", "<p>old</p>", ""⟩)
      (.responded (.obj [("success", .bool true), ("data", .obj [("bmi", .num 22)])]))).threw
      = true ∧
    (submit ⟨"flex", "none", "none", "", "", "<p>old</p>", ""⟩
      (.responded (.obj [("success", .bool true), ("data", .obj [("bmi", .num 22)])]))).state.errorMessage
      = "Failed to generate plan. Please try again." ∧
    (submit ⟨"flex", "none", "none", "", "", "<p>old</p>", ""⟩
      (.responded (.obj [("success", .bool true), ("data", .obj [("bmi", .num 22)])]))).state.resultsDisplay
      = "none" :=
  have h := (submit_exception ⟨"flex", "none", "none", "", "", "<p>old</p>", ""⟩
    (.responded (.obj [("success", .bool true), ("data", .obj [("bmi", .num 22)])]))).1 (by decide)
  ⟨by decide, h.2.1, h.2.2.1⟩

end SM5K
